import Mathlib

/-!
Shallow embedding of the quasar transactional accounts engine
(transaction processor + ledger + snapshot persistence), translated from
the Rust sources under `src/`, together with proofs about the claims of
the natural-language specification.

Conventions of the embedding:
* `u64` values are `Nat` with explicit `% 2^64` / saturation where the
  Rust code overflows; Rust `u64::saturating_sub` on `a ≥ b`-checked
  paths coincides with `Nat` subtraction.
* `uuid::Uuid` is a `Nat` (the 128-bit value).
* The Rust code is sequential under a single `RwLock` around the whole
  ledger; lock acquisition never fails in a sequential execution, so
  the `FailedToAcquire…` error paths are unreachable and the lock
  acquisition helpers are modelled as always succeeding.
* `HashMap` values are association lists with last-write-wins `insert`;
  `HashSet` is a duplicate-free list.
* `Utc::now()` is passed in as an explicit `now : Nat` argument.
* `Uuid::new_v4()` is passed in as an explicit `fresh : Uuid` argument.
-/

set_option autoImplicit false

namespace Quasar

/-- 128-bit identifiers (`uuid::Uuid`), modelled as the underlying value. -/
abbrev Uuid := Nat

/-- Exclusive upper bound of the `u64` range. -/
def u64Limit : Nat := 2 ^ 64

/-- The largest `u64` value (`u64::MAX`). -/
def u64Max : Nat := u64Limit - 1

/-- Rust `u64::saturating_add`. -/
def saturatingAdd (a b : Nat) : Nat := min (a + b) u64Max

/-- Rust unchecked `u64` addition (`+=`): wraps modulo `2^64` in release
builds (debug builds panic; either way no error value is produced). -/
def wrappingAdd (a b : Nat) : Nat := (a + b) % u64Limit

/-- `models::Key` (src/src/models.rs): possible identifiers of an account. -/
inductive Key
  | CPF (s : String)
  | Email (s : String)
  | Phone (s : String)
  | Random (s : String)
deriving DecidableEq, Repr

/-- `models::TransactionStatus` (src/src/models.rs). -/
inductive TransactionStatus
  | Pending
  | Completed
  | Failed
deriving DecidableEq, Repr

/-- `models::TransferInstruction` (src/src/models.rs). -/
structure TransferInstruction where
  source_account_id : Uuid
  destination_account_id : Uuid
  amount : Nat
deriving DecidableEq, Repr

/-- `models::CreateAccountInstruction` (src/src/models.rs). -/
structure CreateAccountInstruction where
  keys : List Key
deriving DecidableEq, Repr

/-- `models::DepositInstruction` (src/src/models.rs). -/
structure DepositInstruction where
  destination_account_id : Uuid
  amount : Nat
deriving DecidableEq, Repr

/-- `models::GetBalanceInstruction` (src/src/models.rs). -/
structure GetBalanceInstruction where
  account_id : Uuid
deriving DecidableEq, Repr

/-- `models::Instruction` (src/src/models.rs). -/
inductive Instruction
  | Transfer (i : TransferInstruction)
  | CreateAccount (i : CreateAccountInstruction)
  | Deposit (i : DepositInstruction)
  | GetBalance (i : GetBalanceInstruction)
deriving DecidableEq, Repr

/-- `models::Transaction` (src/src/models.rs); the timestamp is the UTC
instant as a number. -/
structure Transaction where
  id : Uuid
  instruction : Instruction
  status : TransactionStatus
  timestamp : Nat
deriving DecidableEq, Repr

/-- `HistoricTransfer` as constructed in `Ledger::commit_transfer`
(src/src/ledger/mod.rs, lines 96-106); its declaration is absent from
`src/` (revision drift: `models.rs` declares `transaction_history:
Vec<Uuid>` while the live ledger pushes these records), so the record
type is taken from its construction site. -/
structure HistoricTransfer where
  transaction_id : Uuid
  instruction : TransferInstruction
  timestamp : Nat
deriving DecidableEq, Repr

/-- `models::Account` as used by the live ledger (src/src/ledger/mod.rs):
`transaction_history` holds the `HistoricTransfer` records pushed by
`commit_transfer`. -/
structure Account where
  uuid : Uuid
  balance : Nat
  keys : List Key
  transaction_history : List HistoricTransfer
deriving DecidableEq, Repr

/-- `Account::new` (src/src/models.rs, lines 79-90); the fresh v4 UUID is
an explicit argument. -/
def Account.new (fresh : Uuid) (keys : List Key) : Uuid × Account :=
  (fresh, { uuid := fresh, balance := 0, keys := keys, transaction_history := [] })

/-- `ledger::error::LedgerError` (src/src/ledger/error.rs). -/
inductive LedgerError
  | FailedToAcquireAccountsWriteLock
  | FailedToAcquireAccountsReadLock
  | FailedToAcquireTransactionsWriteLock
  | FailedToAcquireTransactionsReadLock
  | AccountNotFound
  | TransactionAlreadyProcessed
  | InsufficientFunds
deriving DecidableEq, Repr

/-- `transaction_processor::error::TransactionProcessorError`
(src/src/transaction_processor/error.rs). Note: the enum has no
`InvalidAmount` and no `Overflow` variant. -/
inductive TransactionProcessorError
  | LedgerError (e : LedgerError)
  | TransactionAlreadyProcessed
  | InsufficientFunds
  | FailedToAcquireLedgerLock
deriving DecidableEq, Repr

/-- `TransactionResult` as used by `TransactionProcessor`
(src/src/transaction_processor/mod.rs; its declaration site
`interface.rs` has drifted and no longer declares it — the variants are
the ones constructed by the processor, matching spec §4.4). -/
inductive TransactionResult
  | Success
  | AccountCreated (id : Uuid)
  | Balance (b : Nat)
deriving DecidableEq, Repr

/-- `HashMap::get` on the accounts map: first (unique) entry with the key. -/
def findAccount (accounts : List (Uuid × Account)) (id : Uuid) : Option Account :=
  match accounts with
  | [] => none
  | (k, a) :: rest => if k = id then some a else findAccount rest id

/-- `HashMap::insert` on the accounts map: replace the entry if the key is
present, else append. -/
def insertAccount (accounts : List (Uuid × Account)) (id : Uuid) (a : Account) :
    List (Uuid × Account) :=
  match accounts with
  | [] => [(id, a)]
  | (k, b) :: rest =>
    if k = id then (id, a) :: rest else (k, b) :: insertAccount rest id a

/-- `HashSet::contains` on the processed-transaction-ids set. -/
def containsId (l : List Uuid) (id : Uuid) : Bool :=
  match l with
  | [] => false
  | k :: rest => if k = id then true else containsId rest id

/-- `HashSet::insert` on the processed-transaction-ids set. -/
def insertId (l : List Uuid) (id : Uuid) : List Uuid :=
  if containsId l id then l else l ++ [id]

/-- `ledger::Ledger` (src/src/ledger/mod.rs, lines 16-21): the accounts
map and the processed-transactions set, each behind its own `RwLock`
(locks are implicit in this sequential model). -/
structure Ledger where
  accounts : List (Uuid × Account)
  processed_transactions : List Uuid
deriving DecidableEq, Repr

/-- `Ledger::new` (src/src/ledger/mod.rs, lines 24-29). -/
def Ledger.new : Ledger := { accounts := [], processed_transactions := [] }

/-- `Ledger::create_account` (src/src/ledger/mod.rs, lines 65-70); the
fresh UUID drawn by `Account::new` is an explicit argument. -/
def Ledger.create_account (lg : Ledger) (fresh : Uuid) (keys : List Key) :
    Uuid × Ledger :=
  let (account_id, account) := Account.new fresh keys
  (account_id, { lg with accounts := insertAccount lg.accounts account_id account })

/-- `Ledger::get_account` (src/src/ledger/mod.rs, lines 72-78): a cloned
snapshot of the entry, or `AccountNotFound`. -/
def Ledger.get_account (lg : Ledger) (id : Uuid) : Except LedgerError Account :=
  match findAccount lg.accounts id with
  | some a => .ok a
  | none => .error .AccountNotFound

/-- `Ledger::commit_transfer` (src/src/ledger/mod.rs, lines 80-114).
Fails only on the processed-set safeguard; otherwise it appends a
`HistoricTransfer` to both caller-supplied account copies, stores both
copies keyed by their own `uuid` field (source first, destination
second), and inserts the transaction id into the processed set. The
Rust function mutates the two accounts through `&mut`; the model
returns the updated copies alongside the new ledger. -/
def Ledger.commit_transfer (lg : Ledger) (transaction_id : Uuid)
    (instruction : TransferInstruction) (source_account dest_account : Account)
    (now : Nat) : Except LedgerError (Account × Account × Ledger) :=
  if containsId lg.processed_transactions transaction_id then
    .error .TransactionAlreadyProcessed
  else
    let source_account := { source_account with
      transaction_history := source_account.transaction_history ++
        [{ transaction_id := transaction_id, instruction := instruction, timestamp := now }] }
    let dest_account := { dest_account with
      transaction_history := dest_account.transaction_history ++
        [{ transaction_id := transaction_id, instruction := instruction, timestamp := now }] }
    let accounts := insertAccount
      (insertAccount lg.accounts source_account.uuid source_account)
      dest_account.uuid dest_account
    .ok (source_account, dest_account,
      { accounts := accounts,
        processed_transactions := insertId lg.processed_transactions transaction_id })

/-- `Ledger::is_transaction_processed` (src/src/ledger/mod.rs, lines
116-119). -/
def Ledger.is_transaction_processed (lg : Ledger) (transaction_id : Uuid) : Bool :=
  containsId lg.processed_transactions transaction_id

/-- `Ledger::mark_transaction_processed` (src/src/ledger/mod.rs, lines
121-125). -/
def Ledger.mark_transaction_processed (lg : Ledger) (transaction_id : Uuid) : Ledger :=
  { lg with processed_transactions := insertId lg.processed_transactions transaction_id }

/-- `Ledger::update_account_balance` (src/src/ledger/ledger.rs, lines
75-87): unchecked `account.balance += amount` on the stored entry
(wraps modulo `2^64` in release builds; no error is produced on
overflow). -/
def Ledger.update_account_balance (lg : Ledger) (id : Uuid) (amount : Nat) :
    Except LedgerError Ledger :=
  match findAccount lg.accounts id with
  | none => .error .AccountNotFound
  | some account =>
    let updated := { account with balance := wrappingAdd account.balance amount }
    .ok { lg with accounts := insertAccount lg.accounts id updated }

/-- `deposit_into_account` is called by
`TransactionProcessor::process_deposit`
(src/src/transaction_processor/mod.rs, line 98) but has no definition
under `src/`; its behaviour is that of the deposit primitive the
sources cite, `Ledger::update_account_balance`
(src/src/ledger/ledger.rs, lines 75-87). -/
def Ledger.deposit_into_account (lg : Ledger) (id : Uuid) (amount : Nat) :
    Except LedgerError Ledger :=
  Ledger.update_account_balance lg id amount

/-- `TransactionProcessor::process_transfer`
(src/src/transaction_processor/mod.rs, lines 37-67): idempotency gate,
two snapshot reads, funds check, saturating balance updates on the two
copies, then `commit_transfer`. Every error path leaves the ledger
unchanged. -/
def process_transfer (lg : Ledger) (transaction_id : Uuid)
    (instruction : TransferInstruction) (now : Nat) :
    Except TransactionProcessorError TransactionResult × Ledger :=
  if lg.is_transaction_processed transaction_id then
    (.error .TransactionAlreadyProcessed, lg)
  else
    match lg.get_account instruction.source_account_id with
    | .error e => (.error (.LedgerError e), lg)
    | .ok source_account =>
      match lg.get_account instruction.destination_account_id with
      | .error e => (.error (.LedgerError e), lg)
      | .ok dest_account =>
        if source_account.balance < instruction.amount then
          (.error .InsufficientFunds, lg)
        else
          let source_account := { source_account with
            balance := source_account.balance - instruction.amount }
          let dest_account := { dest_account with
            balance := saturatingAdd dest_account.balance instruction.amount }
          match lg.commit_transfer transaction_id instruction source_account
              dest_account now with
          | .error e => (.error (.LedgerError e), lg)
          | .ok (_, _, lg') => (.ok .Success, lg')

/-- `TransactionProcessor::process_create_account`
(src/src/transaction_processor/mod.rs, lines 69-85). -/
def process_create_account (lg : Ledger) (transaction_id : Uuid)
    (instruction : CreateAccountInstruction) (fresh : Uuid) :
    Except TransactionProcessorError TransactionResult × Ledger :=
  if lg.is_transaction_processed transaction_id then
    (.error .TransactionAlreadyProcessed, lg)
  else
    let (created_account_id, lg₁) := lg.create_account fresh instruction.keys
    let lg₂ := lg₁.mark_transaction_processed transaction_id
    (.ok (.AccountCreated created_account_id), lg₂)

/-- `TransactionProcessor::process_deposit`
(src/src/transaction_processor/mod.rs, lines 87-103). -/
def process_deposit (lg : Ledger) (transaction_id : Uuid)
    (instruction : DepositInstruction) :
    Except TransactionProcessorError TransactionResult × Ledger :=
  if lg.is_transaction_processed transaction_id then
    (.error .TransactionAlreadyProcessed, lg)
  else
    match lg.deposit_into_account instruction.destination_account_id
        instruction.amount with
    | .error e => (.error (.LedgerError e), lg)
    | .ok lg₁ =>
      let lg₂ := lg₁.mark_transaction_processed transaction_id
      (.ok .Success, lg₂)

/-- `TransactionProcessor::get_balance`
(src/src/transaction_processor/mod.rs, lines 105-117): read-only. -/
def get_balance (lg : Ledger) (account_id : Uuid) :
    Except TransactionProcessorError TransactionResult :=
  match lg.get_account account_id with
  | .error e => .error (.LedgerError e)
  | .ok account => .ok (.Balance account.balance)

/-- `TransactionProcessor::process_transaction` dispatch
(src/src/transaction_processor/mod.rs, lines 120-148); the `measure!`
metric wrappers are transparent. -/
def process_transaction (lg : Ledger) (transaction : Transaction)
    (fresh : Uuid) (now : Nat) :
    Except TransactionProcessorError TransactionResult × Ledger :=
  match transaction.instruction with
  | .Transfer inst => process_transfer lg transaction.id inst now
  | .CreateAccount inst => process_create_account lg transaction.id inst fresh
  | .Deposit inst => process_deposit lg transaction.id inst
  | .GetBalance inst => (get_balance lg inst.account_id, lg)

end Quasar

namespace Quasar

namespace Persist

/-- `models::Account` in the form `persistence.rs` serialises
(src/src/models.rs, lines 69-91): here `transaction_history` holds
transaction ids, as the comment in `models.rs` prescribes. -/
structure Account where
  uuid : Uuid
  balance : Nat
  keys : List Key
  transaction_history : List Uuid
deriving DecidableEq, Repr

/-- Row-by-row decoding loop of `load_state`: every row must decode
(an `unwrap` panic on a bad row is modelled as `none` for the whole
load). -/
def mapOption {A B : Type} (f : A → Option B) : List A → Option (List B)
  | [] => some []
  | x :: xs =>
    match f x, mapOption f xs with
    | some y, some ys => some (y :: ys)
    | _, _ => none

/-- Lower-case hex digit character, as produced by `Uuid::to_string`. -/
def hexChar (n : Nat) : Char :=
  if n < 10 then Char.ofNat (48 + n) else Char.ofNat (87 + n)

/-- Numeric value of a hex digit character (`Uuid::parse_str` accepts
both cases). -/
def hexVal (c : Char) : Option Nat :=
  if 48 ≤ c.toNat ∧ c.toNat ≤ 57 then some (c.toNat - 48)
  else if 97 ≤ c.toNat ∧ c.toNat ≤ 102 then some (c.toNat - 87)
  else if 65 ≤ c.toNat ∧ c.toNat ≤ 70 then some (c.toNat - 55)
  else none

/-- The `w` big-endian nibbles of `n`. -/
def toNibbles (w : Nat) (n : Nat) : List Nat :=
  match w with
  | 0 => []
  | w + 1 => toNibbles w (n / 16) ++ [n % 16]

/-- The 8-4-4-4-12 hyphen grouping of the 32 hex digit characters. -/
def hexGroups (ds : List Char) : List Char :=
  ds.take 8 ++ ['-'] ++ (ds.drop 8).take 4 ++ ['-'] ++ (ds.drop 12).take 4 ++
    ['-'] ++ (ds.drop 16).take 4 ++ ['-'] ++ ds.drop 20

/-- `Uuid::to_string` (uuid crate): the canonical hyphenated
8-4-4-4-12 lower-case hex rendering of the 128-bit value. -/
def uuidToString (u : Uuid) : String :=
  ⟨hexGroups ((toNibbles 32 u).map hexChar)⟩

/-- `Uuid::parse_str` on the hyphenated forms `to_string` emits: strip
hyphens and read 32 hex digits. -/
def parseUuid (s : String) : Option Uuid :=
  if (s.data.filter (fun c => c ≠ '-')).length = 32 then
    (mapOption hexVal (s.data.filter (fun c => c ≠ '-'))).map
      (fun vs => vs.foldl (fun acc d => acc * 16 + d) 0)
  else none

/-- Decimal digits of `n`, most significant first (`fuel ≥ n` suffices). -/
def decDigitsAux (fuel n : Nat) : List Nat :=
  match fuel with
  | 0 => []
  | fuel + 1 => if n < 10 then [n] else decDigitsAux fuel (n / 10) ++ [n % 10]

/-- `u64::to_string`: decimal rendering (`balance.to_string()` in
`save_state`). -/
def natToString (n : Nat) : String :=
  ⟨(decDigitsAux (n + 1) n).map (fun d => Char.ofNat (48 + d))⟩

/-- Value of a decimal digit character. -/
def decVal (c : Char) : Option Nat :=
  if 48 ≤ c.toNat ∧ c.toNat ≤ 57 then some (c.toNat - 48) else none

/-- Exclusive upper bound of SQLite's signed 64-bit INTEGER storage
class (`i64::MAX + 1`). -/
def i64Limit : Nat := 2 ^ 63

/-- Reading the `balance` column back (`row.get::<_, u64>`):
`save_state` binds `balance.to_string()` as text into the
INTEGER-affinity column, so SQLite stores the decimal text as a signed
64-bit INTEGER only while it fits in `i64`; a larger value is coerced
to REAL/TEXT and rusqlite's `u64` `FromSql` then fails — the failing
read (an `Err` row that `load_state` propagates) is modelled as
`none`. -/
def parseNat (s : String) : Option Nat :=
  if s.data.length = 0 then none
  else
    match (mapOption decVal s.data).map
        (fun vs => vs.foldl (fun acc d => acc * 10 + d) 0) with
    | some n => if n < i64Limit then some n else none
    | none => none

/-- Shallow model of `serde_json` values; the printer/parser string layer
of serde_json is a faithful inverse pair on these and is elided. -/
inductive Json
  | str (s : String)
  | num (n : Nat)
  | arr (xs : List Json)
  | obj (fields : List (String × Json))

/-- serde serialisation of `Key`: externally tagged enum variant. -/
def keyToJson : Key → Json
  | .CPF s => .obj [("CPF", .str s)]
  | .Email s => .obj [("Email", .str s)]
  | .Phone s => .obj [("Phone", .str s)]
  | .Random s => .obj [("Random", .str s)]

/-- serde deserialisation of `Key`. -/
def jsonToKey : Json → Option Key
  | .obj [("CPF", .str s)] => some (.CPF s)
  | .obj [("Email", .str s)] => some (.Email s)
  | .obj [("Phone", .str s)] => some (.Phone s)
  | .obj [("Random", .str s)] => some (.Random s)
  | _ => none

/-- serde serialisation of the `keys` vector. -/
def keysToJson (ks : List Key) : Json := .arr (ks.map keyToJson)

/-- serde deserialisation of the `keys` vector. -/
def jsonToKeys : Json → Option (List Key)
  | .arr xs => mapOption jsonToKey xs
  | _ => none

/-- serde serialisation of the history vector: uuids render as strings. -/
def historyToJson (h : List Uuid) : Json :=
  .arr (h.map (fun u => .str (uuidToString u)))

/-- serde deserialisation of the history vector. -/
def jsonToHistory : Json → Option (List Uuid)
  | .arr xs => mapOption (fun j =>
      match j with
      | .str s => parseUuid s
      | _ => none) xs
  | _ => none

/-- serde serialisation of `TransactionStatus` (unit variants become
strings). -/
def statusToJson : TransactionStatus → Json
  | .Pending => .str "Pending"
  | .Completed => .str "Completed"
  | .Failed => .str "Failed"

/-- serde deserialisation of `TransactionStatus`. -/
def jsonToStatus : Json → Option TransactionStatus
  | .str "Pending" => some .Pending
  | .str "Completed" => some .Completed
  | .str "Failed" => some .Failed
  | _ => none

/-- serde serialisation of `Instruction`: externally tagged variant
holding the instruction struct. -/
def instructionToJson : Instruction → Json
  | .Transfer i => .obj [("Transfer", .obj
      [("source_account_id", .str (uuidToString i.source_account_id)),
       ("destination_account_id", .str (uuidToString i.destination_account_id)),
       ("amount", .num i.amount)])]
  | .CreateAccount i => .obj [("CreateAccount", .obj [("keys", keysToJson i.keys)])]
  | .Deposit i => .obj [("Deposit", .obj
      [("destination_account_id", .str (uuidToString i.destination_account_id)),
       ("amount", .num i.amount)])]
  | .GetBalance i => .obj [("GetBalance", .obj
      [("account_id", .str (uuidToString i.account_id))])]

/-- serde deserialisation of `Instruction`. -/
def jsonToInstruction : Json → Option Instruction
  | .obj [("Transfer", .obj
      [("source_account_id", .str s),
       ("destination_account_id", .str d),
       ("amount", .num a)])] =>
    match parseUuid s, parseUuid d with
    | some su, some du => some (.Transfer ⟨su, du, a⟩)
    | _, _ => none
  | .obj [("CreateAccount", .obj [("keys", kj)])] =>
    (jsonToKeys kj).map (fun ks => .CreateAccount ⟨ks⟩)
  | .obj [("Deposit", .obj
      [("destination_account_id", .str d), ("amount", .num a)])] =>
    (parseUuid d).map (fun du => .Deposit ⟨du, a⟩)
  | .obj [("GetBalance", .obj [("account_id", .str s)])] =>
    (parseUuid s).map (fun u => .GetBalance ⟨u⟩)
  | _ => none

/-- A row of the `accounts` table as written by `save_state`
(src/src/persistence.rs, lines 57-70): uuid and balance go through
`to_string`, keys and history through `serde_json::to_string`. -/
structure AccountRow where
  uuid : String
  balance : String
  keys : Json
  transaction_history : Json

/-- A row of the `transactions` table (src/src/persistence.rs, lines
72-86); chrono's `to_rfc3339` / RFC 3339 parse is a lossless pair on
instants, so the timestamp column carries the instant itself. -/
structure TransactionRow where
  id : String
  instruction : Json
  status : Json
  timestamp : Nat

/-- The embedded SQL store: the three tables, one list entry per row. -/
structure Db where
  accounts : List AccountRow
  transactions : List TransactionRow
  processed_transactions : List String

/-- One `INSERT INTO accounts` row (src/src/persistence.rs, lines 57-70). -/
def saveAccount (a : Account) : AccountRow :=
  { uuid := uuidToString a.uuid, balance := natToString a.balance,
    keys := keysToJson a.keys,
    transaction_history := historyToJson a.transaction_history }

/-- One `INSERT INTO transactions` row (src/src/persistence.rs, lines
72-86). -/
def saveTransaction (t : Transaction) : TransactionRow :=
  { id := uuidToString t.id, instruction := instructionToJson t.instruction,
    status := statusToJson t.status, timestamp := t.timestamp }

/-- `Persistence::save_state` (src/src/persistence.rs, lines 46-96):
full rewrite — the three DELETEs empty the tables, then one row is
inserted per container entry (values of the maps, elements of the set). -/
def save_state (accounts : List (Uuid × Account))
    (transactions : List (Uuid × Transaction)) (processed : List Uuid) : Db :=
  { accounts := accounts.map (fun p => saveAccount p.2),
    transactions := transactions.map (fun p => saveTransaction p.2),
    processed_transactions := processed.map uuidToString }

/-- Decoding of one `accounts` row in `load_state`
(src/src/persistence.rs, lines 102-121); the `unwrap`s on parse
failures are modelled as `none`. The entry is keyed by the parsed uuid
column. -/
def loadAccount (r : AccountRow) : Option (Uuid × Account) :=
  match parseUuid r.uuid, parseNat r.balance, jsonToKeys r.keys,
      jsonToHistory r.transaction_history with
  | some uuid, some balance, some keys, some th =>
    some (uuid, ⟨uuid, balance, keys, th⟩)
  | _, _, _, _ => none

/-- Decoding of one `transactions` row in `load_state`
(src/src/persistence.rs, lines 129-152). -/
def loadTransaction (r : TransactionRow) : Option (Uuid × Transaction) :=
  match parseUuid r.id, jsonToInstruction r.instruction,
      jsonToStatus r.status with
  | some id, some inst, some status => some (id, ⟨id, inst, status, r.timestamp⟩)
  | _, _, _ => none

/-- `Persistence::load_state` (src/src/persistence.rs, lines 98-173):
three scans; every row is decoded and inserted into the rebuilt
containers in row order. -/
def load_state (db : Db) :
    Option (List (Uuid × Account) × List (Uuid × Transaction) × List Uuid) :=
  match mapOption loadAccount db.accounts,
      mapOption loadTransaction db.transactions,
      mapOption parseUuid db.processed_transactions with
  | some accs, some txs, some ps => some (accs, txs, ps)
  | _, _, _ => none

/-- A uuid value fits in 128 bits. -/
def wfUuid (u : Uuid) : Bool := decide (u < 2 ^ 128)

/-- All ids of a history vector are uuid values. -/
def wfHistory (h : List Uuid) : Bool := h.all wfUuid

/-- All ids mentioned by an instruction are uuid values. -/
def wfInstruction : Instruction → Bool
  | .Transfer i => wfUuid i.source_account_id && wfUuid i.destination_account_id
  | .CreateAccount _ => true
  | .Deposit i => wfUuid i.destination_account_id
  | .GetBalance i => wfUuid i.account_id

/-- A reachable accounts-map entry: the stored account's `uuid` field is
its map key (create_account and commit_transfer key entries that way)
and all ids are uuid values. -/
def wfAccountEntry (p : Uuid × Account) : Bool :=
  decide (p.2.uuid = p.1) && wfUuid p.2.uuid && wfHistory p.2.transaction_history

/-- A reachable transactions-map entry: keyed by the transaction's own
id, ids in range. -/
def wfTransactionEntry (p : Uuid × Transaction) : Bool :=
  decide (p.2.id = p.1) && wfUuid p.2.id && wfInstruction p.2.instruction

end Persist

end Quasar

namespace Quasar

/-! ### Helper lemmas about the container model -/

theorem findAccount_insertAccount_self (l : List (Uuid × Account)) (k : Uuid)
    (a : Account) : findAccount (insertAccount l k a) k = some a := by
  induction l with
  | nil => simp [insertAccount, findAccount]
  | cons hd tl ih =>
    obtain ⟨k', b⟩ := hd
    by_cases h : k' = k
    · simp [insertAccount, h, findAccount]
    · simp [insertAccount, h, findAccount, ih]

theorem findAccount_insertAccount_ne (l : List (Uuid × Account)) (k k' : Uuid)
    (a : Account) (h : k' ≠ k) :
    findAccount (insertAccount l k a) k' = findAccount l k' := by
  induction l with
  | nil => simp [insertAccount, findAccount, Ne.symm h]
  | cons hd tl ih =>
    obtain ⟨k₀, b⟩ := hd
    by_cases h₀ : k₀ = k
    · subst h₀
      simp [insertAccount, findAccount, Ne.symm h]
    · simp [insertAccount, h₀, findAccount, ih]

theorem containsId_append_self (l : List Uuid) (k : Uuid) :
    containsId (l ++ [k]) k = true := by
  induction l with
  | nil => simp [containsId]
  | cons hd tl ih =>
    by_cases h : hd = k <;> simp [containsId, h, ih]

theorem insertId_of_not_contains (l : List Uuid) (k : Uuid)
    (h : containsId l k = false) : insertId l k = l ++ [k] := by
  simp [insertId, h]

theorem containsId_insertId_self (l : List Uuid) (k : Uuid) :
    containsId (insertId l k) k = true := by
  unfold insertId
  by_cases h : containsId l k = true
  · simp [h]
  · simp only [Bool.not_eq_true] at h
    simp [h, containsId_append_self]

/-- Behaviour of `Ledger::commit_transfer` when the transaction id has not
been processed yet: unconditional commit of the caller-supplied copies. -/
theorem commit_transfer_of_not_processed (lg : Ledger) (txid : Uuid)
    (inst : TransferInstruction) (src dst : Account) (now : Nat)
    (h : containsId lg.processed_transactions txid = false) :
    lg.commit_transfer txid inst src dst now =
      .ok
        ({ src with transaction_history := src.transaction_history ++
            [{ transaction_id := txid, instruction := inst, timestamp := now }] },
         { dst with transaction_history := dst.transaction_history ++
            [{ transaction_id := txid, instruction := inst, timestamp := now }] },
         { accounts :=
            insertAccount
              (insertAccount lg.accounts src.uuid
                ({ src with transaction_history := src.transaction_history ++
                  [{ transaction_id := txid, instruction := inst, timestamp := now }] }))
              dst.uuid
              ({ dst with transaction_history := dst.transaction_history ++
                [{ transaction_id := txid, instruction := inst, timestamp := now }] }),
           processed_transactions := lg.processed_transactions ++ [txid] }) := by
  simp [Ledger.commit_transfer, h, insertId_of_not_contains]

end Quasar

namespace Quasar

/-- Every error return of `process_transfer` leaves the ledger unchanged. -/
theorem process_transfer_error_state (lg : Ledger) (txid : Uuid)
    (inst : TransferInstruction) (now : Nat) (e : TransactionProcessorError)
    (lg₂ : Ledger) (h : process_transfer lg txid inst now = (.error e, lg₂)) :
    lg₂ = lg := by
  by_cases hp : lg.is_transaction_processed txid
  · simp [process_transfer, hp] at h
    exact h.2.symm
  · rcases hs : lg.get_account inst.source_account_id with es | src
    · simp [process_transfer, hp, hs] at h
      exact h.2.symm
    · rcases hd : lg.get_account inst.destination_account_id with ed | dst
      · simp [process_transfer, hp, hs, hd] at h
        exact h.2.symm
      · by_cases hb : src.balance < inst.amount
        · simp [process_transfer, hp, hs, hd, hb] at h
          exact h.2.symm
        · rcases hc : lg.commit_transfer txid inst
              ({ src with balance := src.balance - inst.amount })
              ({ dst with balance := saturatingAdd dst.balance inst.amount })
              now with ec | okv
          · simp [process_transfer, hp, hs, hd, hb, hc] at h
            exact h.2.symm
          · obtain ⟨a, b, lg'⟩ := okv
            simp [process_transfer, hp, hs, hd, hb, hc] at h

/-! ### Claim theorems -/

/-- C1: the spec requires a self-transfer (src == dst) to be rejected as
invalid or committed as a balance-preserving no-op. The code does
neither: on an account with balance 100, a self-transfer of 50 passes
the funds check, debits one clone and credits another clone of the same
account, and the credited clone's insert overwrites the debited one —
the call returns Success, marks id 42 processed, and leaves the balance
at 150 (money is created). -/
theorem c1_self_transfer_inflates_balance :
    process_transfer ⟨[(1, ⟨1, 100, [], []⟩)], []⟩ 42 ⟨1, 1, 50⟩ 0 =
      (.ok .Success, ⟨[(1, ⟨1, 150, [], [⟨42, ⟨1, 1, 50⟩, 0⟩]⟩)], [42]⟩) :=
  rfl

/-- C3: re-submitting a Transfer, CreateAccount or Deposit transaction
whose id is already in the processed-ids set returns
TransactionAlreadyProcessed and leaves the ledger (accounts and
processed set) unchanged. -/
theorem c3_idempotency_gate (lg : Ledger) (t : Transaction) (fresh : Uuid)
    (now : Nat) (hproc : lg.is_transaction_processed t.id = true)
    (hgated : ∀ g, t.instruction ≠ Instruction.GetBalance g) :
    process_transaction lg t fresh now =
      (.error .TransactionAlreadyProcessed, lg) := by
  cases hinst : t.instruction with
  | Transfer inst => simp [process_transaction, hinst, process_transfer, hproc]
  | CreateAccount inst =>
    simp [process_transaction, hinst, process_create_account, hproc]
  | Deposit inst => simp [process_transaction, hinst, process_deposit, hproc]
  | GetBalance g => exact absurd hinst (hgated g)

/-- C3 witness: a concrete re-submitted transfer hits the gate. -/
theorem c3_idempotency_gate_witness :
    process_transaction ⟨[(1, ⟨1, 5, [], []⟩)], [9]⟩
        ⟨9, .Transfer ⟨1, 1, 1⟩, .Pending, 0⟩ 77 0 =
      (.error .TransactionAlreadyProcessed, ⟨[(1, ⟨1, 5, [], []⟩)], [9]⟩) :=
  c3_idempotency_gate _ _ 77 0 (by decide) (by intro g h; cases h)

/-- C5: a transfer whose source balance is strictly below the requested
amount (id unprocessed, both accounts present) returns InsufficientFunds
and the post-state is exactly the pre-state. -/
theorem c5_insufficient_funds (lg : Ledger) (txid : Uuid)
    (inst : TransferInstruction) (now : Nat) (src dst : Account)
    (hproc : lg.is_transaction_processed txid = false)
    (hsrc : findAccount lg.accounts inst.source_account_id = some src)
    (hdst : findAccount lg.accounts inst.destination_account_id = some dst)
    (hlt : src.balance < inst.amount) :
    process_transfer lg txid inst now = (.error .InsufficientFunds, lg) := by
  unfold process_transfer
  simp [hproc, Ledger.get_account, hsrc, hdst, hlt]

/-- C5 witness: balance 10 cannot cover a transfer of 25. -/
theorem c5_insufficient_funds_witness :
    process_transfer ⟨[(1, ⟨1, 10, [], []⟩), (2, ⟨2, 0, [], []⟩)], []⟩
        9 ⟨1, 2, 25⟩ 0 =
      (.error .InsufficientFunds,
        ⟨[(1, ⟨1, 10, [], []⟩), (2, ⟨2, 0, [], []⟩)], []⟩) :=
  c5_insufficient_funds ⟨[(1, ⟨1, 10, [], []⟩), (2, ⟨2, 0, [], []⟩)], []⟩
    9 ⟨1, 2, 25⟩ 0 ⟨1, 10, [], []⟩ ⟨2, 0, [], []⟩ rfl rfl rfl (by decide)

/-- C10: `commit_transfer` validates nothing about balances or amounts:
whenever the transaction id is not yet processed it unconditionally
appends the transfer record to both caller-supplied copies' histories,
overwrites the stored entries at both copies' own uuids with those
copies (source first, destination second), and inserts the id into the
processed set. -/
theorem c10_commit_transfer_unconditional (lg : Ledger) (txid : Uuid)
    (inst : TransferInstruction) (src dst : Account) (now : Nat)
    (h : containsId lg.processed_transactions txid = false) :
    lg.commit_transfer txid inst src dst now =
      .ok
        ({ src with transaction_history := src.transaction_history ++
            [{ transaction_id := txid, instruction := inst, timestamp := now }] },
         { dst with transaction_history := dst.transaction_history ++
            [{ transaction_id := txid, instruction := inst, timestamp := now }] },
         { accounts :=
            insertAccount
              (insertAccount lg.accounts src.uuid
                ({ src with transaction_history := src.transaction_history ++
                  [{ transaction_id := txid, instruction := inst, timestamp := now }] }))
              dst.uuid
              ({ dst with transaction_history := dst.transaction_history ++
                [{ transaction_id := txid, instruction := inst, timestamp := now }] }),
           processed_transactions := lg.processed_transactions ++ [txid] }) :=
  commit_transfer_of_not_processed lg txid inst src dst now h

/-- C10 witness: a concrete commit with insufficient balances still lands. -/
theorem c10_commit_transfer_unconditional_witness :
    Ledger.commit_transfer ⟨[], [3]⟩ 4 ⟨1, 2, 1000⟩
        ⟨1, 0, [], []⟩ ⟨2, 7, [], []⟩ 5 =
      .ok (⟨1, 0, [], [⟨4, ⟨1, 2, 1000⟩, 5⟩]⟩,
           ⟨2, 7, [], [⟨4, ⟨1, 2, 1000⟩, 5⟩]⟩,
           ⟨[(1, ⟨1, 0, [], [⟨4, ⟨1, 2, 1000⟩, 5⟩]⟩),
             (2, ⟨2, 7, [], [⟨4, ⟨1, 2, 1000⟩, 5⟩]⟩)], [3, 4]⟩) := by
  have h := c10_commit_transfer_unconditional ⟨[], [3]⟩ 4 ⟨1, 2, 1000⟩
    ⟨1, 0, [], []⟩ ⟨2, 7, [], []⟩ 5 (by decide)
  simpa [insertAccount] using h

end Quasar

namespace Quasar

/-- C4: transfer failures (AccountNotFound, InsufficientFunds) leave all
state unchanged and do not insert the transaction id into the processed
set, so a later submission of the same id in a state satisfying the
preconditions (id unprocessed, both accounts present, sufficient funds)
commits with Success and marks the id processed. -/
theorem c4_failed_transfer_retryable (lg : Ledger) (txid : Uuid)
    (inst : TransferInstruction) (now : Nat) :
    (∀ e lg₂, process_transfer lg txid inst now = (.error e, lg₂) → lg₂ = lg) ∧
    (∀ lg₂, (process_transfer lg txid inst now =
          (.error (.LedgerError .AccountNotFound), lg₂) ∨
        process_transfer lg txid inst now = (.error .InsufficientFunds, lg₂)) →
      containsId lg.processed_transactions txid = false) ∧
    (∀ src dst, lg.is_transaction_processed txid = false →
      findAccount lg.accounts inst.source_account_id = some src →
      findAccount lg.accounts inst.destination_account_id = some dst →
      inst.amount ≤ src.balance →
      ∃ lg₂, process_transfer lg txid inst now = (.ok .Success, lg₂) ∧
        containsId lg₂.processed_transactions txid = true) := by
  refine ⟨fun e lg₂ h => process_transfer_error_state lg txid inst now e lg₂ h,
    ?_, ?_⟩
  · intro lg₂ hor
    by_cases hp : lg.is_transaction_processed txid
    · exfalso
      rcases hor with h | h <;> simp [process_transfer, hp] at h
    · have hpf : lg.is_transaction_processed txid = false := by simpa using hp
      simpa [Ledger.is_transaction_processed] using hpf
  · intro src dst hp hsrc hdst hle
    have hcontains : containsId lg.processed_transactions txid = false := by
      simpa [Ledger.is_transaction_processed] using hp
    have hstep := commit_transfer_of_not_processed lg txid inst
      ({ src with balance := src.balance - inst.amount })
      ({ dst with balance := saturatingAdd dst.balance inst.amount }) now
      hcontains
    have hrun : process_transfer lg txid inst now =
        (.ok .Success,
          Ledger.mk
            (insertAccount
              (insertAccount lg.accounts src.uuid
                (Account.mk src.uuid (src.balance - inst.amount) src.keys
                  (src.transaction_history ++ [HistoricTransfer.mk txid inst now])))
              dst.uuid
              (Account.mk dst.uuid (saturatingAdd dst.balance inst.amount) dst.keys
                (dst.transaction_history ++ [HistoricTransfer.mk txid inst now])))
            (lg.processed_transactions ++ [txid])) := by
      simp [process_transfer, hp, Ledger.get_account, hsrc, hdst,
        Nat.not_lt.mpr hle, hstep]
    exact ⟨_, hrun, by simp [containsId_append_self]⟩

/-- C4 witness: a concrete failed transfer leaves the ledger unchanged
with the id unprocessed, and a concrete retry-style run succeeds. -/
theorem c4_failed_transfer_retryable_witness :
    (⟨[(1, ⟨1, 10, [], []⟩), (2, ⟨2, 0, [], []⟩)], []⟩ :  Ledger) =
        ⟨[(1, ⟨1, 10, [], []⟩), (2, ⟨2, 0, [], []⟩)], []⟩ ∧
    containsId ([] : List Uuid) 7 = false ∧
    ∃ lg₂, process_transfer
        ⟨[(1, ⟨1, 100, [], []⟩), (2, ⟨2, 0, [], []⟩)], []⟩ 5 ⟨1, 2, 40⟩ 0 =
        (.ok .Success, lg₂) ∧ containsId lg₂.processed_transactions 5 = true :=
  ⟨(c4_failed_transfer_retryable
      ⟨[(1, ⟨1, 10, [], []⟩), (2, ⟨2, 0, [], []⟩)], []⟩ 7 ⟨1, 2, 999⟩ 0).1
      .InsufficientFunds _ rfl,
   (c4_failed_transfer_retryable
      ⟨[(1, ⟨1, 10, [], []⟩), (2, ⟨2, 0, [], []⟩)], []⟩ 7 ⟨1, 2, 999⟩ 0).2.1
      _ (Or.inr rfl),
   (c4_failed_transfer_retryable
      ⟨[(1, ⟨1, 100, [], []⟩), (2, ⟨2, 0, [], []⟩)], []⟩ 5 ⟨1, 2, 40⟩ 0).2.2
      ⟨1, 100, [], []⟩ ⟨2, 0, [], []⟩ rfl rfl rfl (by decide)⟩

end Quasar

namespace Quasar

/-- Successful run of `process_transfer`: with the gate open, both
accounts found and sufficient source funds, the processor commits the
two updated copies and appends the transaction id to the processed set. -/
theorem process_transfer_commits (lg : Ledger) (txid : Uuid)
    (inst : TransferInstruction) (now : Nat) (src dst : Account)
    (hp : lg.is_transaction_processed txid = false)
    (hsrc : findAccount lg.accounts inst.source_account_id = some src)
    (hdst : findAccount lg.accounts inst.destination_account_id = some dst)
    (hle : inst.amount ≤ src.balance) :
    process_transfer lg txid inst now =
      (.ok .Success,
        Ledger.mk
          (insertAccount
            (insertAccount lg.accounts src.uuid
              (Account.mk src.uuid (src.balance - inst.amount) src.keys
                (src.transaction_history ++ [HistoricTransfer.mk txid inst now])))
            dst.uuid
            (Account.mk dst.uuid (saturatingAdd dst.balance inst.amount) dst.keys
              (dst.transaction_history ++ [HistoricTransfer.mk txid inst now])))
          (lg.processed_transactions ++ [txid])) := by
  have hcontains : containsId lg.processed_transactions txid = false := by
    simpa [Ledger.is_transaction_processed] using hp
  have hstep := commit_transfer_of_not_processed lg txid inst
    ({ src with balance := src.balance - inst.amount })
    ({ dst with balance := saturatingAdd dst.balance inst.amount }) now hcontains
  simp [process_transfer, hp, Ledger.get_account, hsrc, hdst,
    Nat.not_lt.mpr hle, hstep]

/-- C2 counterexample: a successful transfer of 1 from an account with
balance 1 to a distinct account with balance `u64::MAX` returns Success
(no Overflow error exists to return) while the balance sum shrinks from
`u64Max + 1` to `u64Max`: the destination saturates. -/
theorem c2_overflow_saturates_counterexample :
    process_transfer ⟨[(1, ⟨1, 1, [], []⟩), (2, ⟨2, u64Max, [], []⟩)], []⟩
        5 ⟨1, 2, 1⟩ 0 =
      (.ok .Success,
        ⟨[(1, ⟨1, 0, [], [⟨5, ⟨1, 2, 1⟩, 0⟩]⟩),
          (2, ⟨2, u64Max, [], [⟨5, ⟨1, 2, 1⟩, 0⟩]⟩)], [5]⟩) ∧
    0 + u64Max ≠ 1 + u64Max :=
  ⟨rfl, by decide⟩

/-- C2 (amended): for a successful transfer between distinct existing
accounts, the source loses exactly the amount and the destination gains
it with `saturating_add`; the balance sum is conserved exactly when the
destination addition does not overflow `u64`, and on would-be overflow
no error is raised — the transfer still returns Success, the
destination is pinned at `u64::MAX`, and the sum strictly decreases. -/
theorem c2_conservation_modulo_saturation (lg : Ledger) (txid : Uuid)
    (inst : TransferInstruction) (now : Nat) (src dst : Account)
    (hp : lg.is_transaction_processed txid = false)
    (hne : inst.source_account_id ≠ inst.destination_account_id)
    (hsrc : findAccount lg.accounts inst.source_account_id = some src)
    (hdst : findAccount lg.accounts inst.destination_account_id = some dst)
    (hsu : src.uuid = inst.source_account_id)
    (hdu : dst.uuid = inst.destination_account_id)
    (hle : inst.amount ≤ src.balance) :
    ∃ lg₂ src' dst',
      process_transfer lg txid inst now = (.ok .Success, lg₂) ∧
      findAccount lg₂.accounts inst.source_account_id = some src' ∧
      findAccount lg₂.accounts inst.destination_account_id = some dst' ∧
      src'.balance = src.balance - inst.amount ∧
      dst'.balance = saturatingAdd dst.balance inst.amount ∧
      (dst.balance + inst.amount ≤ u64Max →
        src'.balance + dst'.balance = src.balance + dst.balance) ∧
      (u64Max < dst.balance + inst.amount →
        dst'.balance = u64Max ∧
        src'.balance + dst'.balance < src.balance + dst.balance) := by
  have hrun := process_transfer_commits lg txid inst now src dst hp hsrc hdst hle
  have hneu : src.uuid ≠ dst.uuid := by
    rw [hsu, hdu]; exact hne
  refine ⟨_,
    Account.mk src.uuid (src.balance - inst.amount) src.keys
      (src.transaction_history ++ [HistoricTransfer.mk txid inst now]),
    Account.mk dst.uuid (saturatingAdd dst.balance inst.amount) dst.keys
      (dst.transaction_history ++ [HistoricTransfer.mk txid inst now]),
    hrun, ?_, ?_, rfl, rfl, ?_, ?_⟩
  · show findAccount (insertAccount (insertAccount lg.accounts src.uuid _)
      dst.uuid _) inst.source_account_id = _
    rw [← hsu, findAccount_insertAccount_ne _ _ _ _ hneu,
      findAccount_insertAccount_self]
  · show findAccount (insertAccount (insertAccount lg.accounts src.uuid _)
      dst.uuid _) inst.destination_account_id = _
    rw [← hdu, findAccount_insertAccount_self]
  · intro hno
    simp only [saturatingAdd, Nat.min_eq_left hno]
    omega
  · intro hover
    have hsat : saturatingAdd dst.balance inst.amount = u64Max := by
      simp only [saturatingAdd]
      exact Nat.min_eq_right (Nat.le_of_lt hover)
    refine ⟨hsat, ?_⟩
    dsimp only
    rw [hsat]
    omega

/-- C2 witness: a concrete in-range transfer (100 and 7, moving 30)
conserves the balance sum. -/
theorem c2_conservation_modulo_saturation_witness :
    ∃ lg₂ src' dst',
      process_transfer ⟨[(1, ⟨1, 100, [], []⟩), (2, ⟨2, 7, [], []⟩)], []⟩
          11 ⟨1, 2, 30⟩ 0 = (.ok .Success, lg₂) ∧
      findAccount lg₂.accounts 1 = some src' ∧
      findAccount lg₂.accounts 2 = some dst' ∧
      src'.balance = 100 - 30 ∧
      dst'.balance = saturatingAdd 7 30 ∧
      (7 + 30 ≤ u64Max → src'.balance + dst'.balance = 100 + 7) ∧
      (u64Max < 7 + 30 → dst'.balance = u64Max ∧
        src'.balance + dst'.balance < 100 + 7) :=
  c2_conservation_modulo_saturation
    ⟨[(1, ⟨1, 100, [], []⟩), (2, ⟨2, 7, [], []⟩)], []⟩ 11 ⟨1, 2, 30⟩ 0
    ⟨1, 100, [], []⟩ ⟨2, 7, [], []⟩ rfl (by decide) rfl rfl rfl rfl
    (by decide)

/-- C6 counterexample: a deposit of 1 into an existing account holding
`u64::MAX` does not fail with any error (no InvalidAmount variant even
exists in `TransactionProcessorError`): it returns Success and the
balance wraps to 0 instead of increasing by the requested amount. -/
theorem c6_deposit_overflow_counterexample :
    process_deposit ⟨[(1, ⟨1, u64Max, [], []⟩)], []⟩ 7 ⟨1, 1⟩ =
      (.ok .Success, ⟨[(1, ⟨1, 0, [], []⟩)], [7]⟩) ∧
    (0 : Nat) ≠ u64Max + 1 :=
  ⟨rfl, by decide⟩

/-- C6 (amended): a deposit into an existing account adds the requested
amount with the unchecked `+=` of `update_account_balance`: the balance
becomes `(balance + amount) % 2^64` and the call returns Success. In
the non-overflowing range this is an increase by exactly the amount;
on overflow nothing fails — the stored balance wraps and differs from
the exact sum (debug builds would panic instead; no InvalidAmount error
exists). -/
theorem c6_deposit_unchecked_add (lg : Ledger) (txid : Uuid)
    (inst : DepositInstruction) (account : Account)
    (hp : lg.is_transaction_processed txid = false)
    (hacct : findAccount lg.accounts inst.destination_account_id = some account) :
    process_deposit lg txid inst =
      (.ok .Success,
        Ledger.mk
          (insertAccount lg.accounts inst.destination_account_id
            (Account.mk account.uuid (wrappingAdd account.balance inst.amount)
              account.keys account.transaction_history))
          (lg.processed_transactions ++ [txid])) ∧
    (account.balance + inst.amount < u64Limit →
      wrappingAdd account.balance inst.amount = account.balance + inst.amount) ∧
    (u64Limit ≤ account.balance + inst.amount →
      wrappingAdd account.balance inst.amount ≠ account.balance + inst.amount) := by
  refine ⟨?_, fun h => Nat.mod_eq_of_lt h, fun h => ?_⟩
  · have hcontains : containsId lg.processed_transactions txid = false := by
      simpa [Ledger.is_transaction_processed] using hp
    simp [process_deposit, hp, Ledger.deposit_into_account,
      Ledger.update_account_balance, hacct, Ledger.mark_transaction_processed,
      insertId_of_not_contains _ _ hcontains]
  · have h0 : 0 < u64Limit := by norm_num [u64Limit]
    have hlt := Nat.mod_lt (account.balance + inst.amount) h0
    simp only [wrappingAdd]
    omega

/-- C6 witness: depositing 3 on balance 5 yields exactly 8. -/
theorem c6_deposit_unchecked_add_witness :
    process_deposit ⟨[(1, ⟨1, 5, [], []⟩)], []⟩ 2 ⟨1, 3⟩ =
      (.ok .Success,
        Ledger.mk (insertAccount [(1, ⟨1, 5, [], []⟩)] 1
          (Account.mk 1 (wrappingAdd 5 3) [] []))
          ([] ++ [2])) ∧
    (5 + 3 < u64Limit → wrappingAdd 5 3 = 5 + 3) :=
  ⟨(c6_deposit_unchecked_add ⟨[(1, ⟨1, 5, [], []⟩)], []⟩ 2 ⟨1, 3⟩
      ⟨1, 5, [], []⟩ rfl rfl).1,
   (c6_deposit_unchecked_add ⟨[(1, ⟨1, 5, [], []⟩)], []⟩ 2 ⟨1, 3⟩
      ⟨1, 5, [], []⟩ rfl rfl).2.1⟩

/-- C8 counterexample: a Deposit of amount 0 and a Transfer of amount 0
are both accepted — they return Success and insert the id into the
processed set — instead of being rejected with InvalidAmount (which
does not exist in the error type) with no state change. -/
theorem c8_zero_amount_counterexample :
    process_deposit ⟨[(1, ⟨1, 100, [], []⟩)], []⟩ 7 ⟨1, 0⟩ =
      (.ok .Success, ⟨[(1, ⟨1, 100, [], []⟩)], [7]⟩) ∧
    process_transfer ⟨[(1, ⟨1, 100, [], []⟩), (2, ⟨2, 5, [], []⟩)], []⟩
        8 ⟨1, 2, 0⟩ 0 =
      (.ok .Success,
        ⟨[(1, ⟨1, 100, [], [⟨8, ⟨1, 2, 0⟩, 0⟩]⟩),
          (2, ⟨2, 5, [], [⟨8, ⟨1, 2, 0⟩, 0⟩]⟩)], [8]⟩) :=
  ⟨rfl, rfl⟩

/-- C8 (amended): zero-amount operations are accepted, not rejected:
with the id unprocessed, a Deposit of 0 into an existing `u64`-range
account returns Success, stores the account back unchanged and marks
the id processed; a Transfer of 0 between existing accounts returns
Success, marks the id processed, and re-stores the accounts with their
balances unchanged (only histories grow). -/
theorem c8_zero_amount_accepted (lg : Ledger) (txid : Uuid) (now : Nat)
    (hp : lg.is_transaction_processed txid = false) :
    (∀ dst_id account, findAccount lg.accounts dst_id = some account →
      account.balance < u64Limit →
      process_deposit lg txid ⟨dst_id, 0⟩ =
        (.ok .Success,
          Ledger.mk (insertAccount lg.accounts dst_id account)
            (lg.processed_transactions ++ [txid]))) ∧
    (∀ inst src dst, inst.amount = 0 →
      findAccount lg.accounts inst.source_account_id = some src →
      findAccount lg.accounts inst.destination_account_id = some dst →
      dst.balance ≤ u64Max →
      ∃ lg₂, process_transfer lg txid inst now = (.ok .Success, lg₂) ∧
        containsId lg₂.processed_transactions txid = true ∧
        findAccount lg₂.accounts dst.uuid =
          some (Account.mk dst.uuid dst.balance dst.keys
            (dst.transaction_history ++ [HistoricTransfer.mk txid inst now])) ∧
        (src.uuid ≠ dst.uuid →
          findAccount lg₂.accounts src.uuid =
            some (Account.mk src.uuid src.balance src.keys
              (src.transaction_history ++ [HistoricTransfer.mk txid inst now])))) := by
  constructor
  · intro dst_id account hacct hblt
    have hcontains : containsId lg.processed_transactions txid = false := by
      simpa [Ledger.is_transaction_processed] using hp
    simp [process_deposit, hp, Ledger.deposit_into_account,
      Ledger.update_account_balance, hacct, Ledger.mark_transaction_processed,
      insertId_of_not_contains _ _ hcontains, wrappingAdd,
      Nat.mod_eq_of_lt hblt]
  · intro inst src dst hz hsrc hdst hble
    have hle : inst.amount ≤ src.balance := by
      rw [hz]; exact Nat.zero_le _
    have hrun := process_transfer_commits lg txid inst now src dst hp hsrc hdst hle
    have hsat : saturatingAdd dst.balance inst.amount = dst.balance := by
      rw [hz, saturatingAdd, Nat.add_zero]
      exact Nat.min_eq_left hble
    refine ⟨_, hrun, by simp [containsId_append_self], ?_, ?_⟩
    · simp [findAccount_insertAccount_self, hsat]
    · intro hneu
      rw [show (Ledger.mk (insertAccount (insertAccount lg.accounts src.uuid
          (Account.mk src.uuid (src.balance - inst.amount) src.keys
            (src.transaction_history ++ [HistoricTransfer.mk txid inst now])))
          dst.uuid
          (Account.mk dst.uuid (saturatingAdd dst.balance inst.amount) dst.keys
            (dst.transaction_history ++ [HistoricTransfer.mk txid inst now])))
          (lg.processed_transactions ++ [txid])).accounts =
          insertAccount (insertAccount lg.accounts src.uuid
            (Account.mk src.uuid (src.balance - inst.amount) src.keys
              (src.transaction_history ++ [HistoricTransfer.mk txid inst now])))
            dst.uuid
            (Account.mk dst.uuid (saturatingAdd dst.balance inst.amount) dst.keys
              (dst.transaction_history ++ [HistoricTransfer.mk txid inst now]))
          from rfl,
        findAccount_insertAccount_ne _ _ _ _ hneu,
        findAccount_insertAccount_self, hz]
      simp

/-- C8 witness: zero-amount deposit on balance 4 is accepted verbatim. -/
theorem c8_zero_amount_accepted_witness :
    process_deposit ⟨[(3, ⟨3, 4, [], []⟩)], []⟩ 6 ⟨3, 0⟩ =
      (.ok .Success,
        Ledger.mk (insertAccount [(3, ⟨3, 4, [], []⟩)] 3 ⟨3, 4, [], []⟩)
          ([] ++ [6])) :=
  (c8_zero_amount_accepted ⟨[(3, ⟨3, 4, [], []⟩)], []⟩ 6 0 rfl).1
    3 ⟨3, 4, [], []⟩ rfl (by decide)

end Quasar


namespace Quasar

namespace Persist

/-! ### Round-trip lemmas for the snapshot codecs -/

theorem mapOption_map {A B : Type} (f : B → Option A) (g : A → B) :
    ∀ l : List A, (∀ x ∈ l, f (g x) = some x) →
      mapOption f (l.map g) = some l := by
  intro l
  induction l with
  | nil => intro _; rfl
  | cons x xs ih =>
    intro h
    simp only [List.map_cons, mapOption]
    rw [h x (by simp), ih (fun y hy => h y (by simp [hy]))]

theorem toNibbles_length (w : Nat) : ∀ n : Nat, (toNibbles w n).length = w := by
  induction w with
  | zero => intro n; simp [toNibbles]
  | succ w ih => intro n; simp [toNibbles, ih]

theorem toNibbles_lt (w : Nat) : ∀ n d : Nat, d ∈ toNibbles w n → d < 16 := by
  induction w with
  | zero => simp [toNibbles]
  | succ w ih =>
    intro n d hd
    simp only [toNibbles, List.mem_append, List.mem_singleton] at hd
    rcases hd with hd | rfl
    · exact ih _ _ hd
    · exact Nat.mod_lt _ (by norm_num)

theorem hexVal_hexChar : ∀ d : Nat, d < 16 → hexVal (hexChar d) = some d := by
  decide

theorem hexChar_ne_hyphen : ∀ d : Nat, d < 16 → hexChar d ≠ '-' := by
  decide

theorem foldl_toNibbles (w : Nat) : ∀ n a : Nat, n < 16 ^ w →
    (toNibbles w n).foldl (fun acc d => acc * 16 + d) a = a * 16 ^ w + n := by
  induction w with
  | zero =>
    intro n a h
    simp only [pow_zero] at h
    simp only [toNibbles, List.foldl_nil, pow_zero]
    omega
  | succ w ih =>
    intro n a h
    have hdiv : n / 16 < 16 ^ w := by
      rw [Nat.div_lt_iff_lt_mul (by norm_num)]
      calc n < 16 ^ (w + 1) := h
        _ = 16 ^ w * 16 := by ring
    simp only [toNibbles, List.foldl_append, List.foldl_cons, List.foldl_nil]
    rw [ih _ _ hdiv, pow_succ, ← mul_assoc]
    omega

theorem filter_hexGroups (l : List Char) (hl : ∀ c ∈ l, c ≠ '-') :
    (hexGroups l).filter (fun c => c ≠ '-') = l := by
  have hsub : ∀ m : List Char, m ⊆ l → m.filter (fun c => c ≠ '-') = m := by
    intro m hm
    rw [List.filter_eq_self]
    intro a ha
    simpa using hl a (hm ha)
  have hhy : (['-'] : List Char).filter (fun c => c ≠ '-') = [] := rfl
  have e16 : (l.drop 16).take 4 ++ l.drop 20 = l.drop 16 := by
    have hdd : (l.drop 16).drop 4 = l.drop 20 := by
      rw [List.drop_drop]
    rw [← hdd, List.take_append_drop]
  have e12 : (l.drop 12).take 4 ++ l.drop 16 = l.drop 12 := by
    have hdd : (l.drop 12).drop 4 = l.drop 16 := by
      rw [List.drop_drop]
    rw [← hdd, List.take_append_drop]
  have e8 : (l.drop 8).take 4 ++ l.drop 12 = l.drop 8 := by
    have hdd : (l.drop 8).drop 4 = l.drop 12 := by
      rw [List.drop_drop]
    rw [← hdd, List.take_append_drop]
  have f1 := hsub (l.take 8) (List.take_subset _ _)
  have f2 := hsub ((l.drop 8).take 4)
    ((List.take_subset _ _).trans (List.drop_subset _ _))
  have f3 := hsub ((l.drop 12).take 4)
    ((List.take_subset _ _).trans (List.drop_subset _ _))
  have f4 := hsub ((l.drop 16).take 4)
    ((List.take_subset _ _).trans (List.drop_subset _ _))
  have f5 := hsub (l.drop 20) (List.drop_subset _ _)
  simp only [hexGroups, List.filter_append, hhy, f1, f2, f3, f4, f5,
    List.append_nil, List.nil_append, List.append_assoc]
  rw [e16, e12, e8, List.take_append_drop]

theorem parseUuid_uuidToString (u : Uuid) (h : u < 2 ^ 128) :
    parseUuid (uuidToString u) = some u := by
  have hmem : ∀ c ∈ (toNibbles 32 u).map hexChar, c ≠ '-' := by
    intro c hc
    obtain ⟨d, hd, rfl⟩ := List.mem_map.mp hc
    exact hexChar_ne_hyphen d (toNibbles_lt 32 u d hd)
  have hfilter := filter_hexGroups ((toNibbles 32 u).map hexChar) hmem
  have hlen : ((toNibbles 32 u).map hexChar).length = 32 := by
    simp [toNibbles_length]
  have hmap := mapOption_map hexVal hexChar (toNibbles 32 u)
    (fun d hd => hexVal_hexChar d (toNibbles_lt 32 u d hd))
  have hu : u < 16 ^ 32 := by
    rw [show (16 : Nat) ^ 32 = 2 ^ 128 by norm_num]
    exact h
  unfold parseUuid uuidToString
  dsimp only
  rw [hfilter, if_pos hlen, hmap]
  simp [foldl_toNibbles 32 u 0 hu]

theorem decDigitsAux_lt : ∀ fuel n d : Nat, d ∈ decDigitsAux fuel n → d < 10 := by
  intro fuel
  induction fuel with
  | zero => simp [decDigitsAux]
  | succ fuel ih =>
    intro n d hd
    by_cases h : n < 10
    · simp [decDigitsAux, h] at hd
      omega
    · simp only [decDigitsAux, if_neg h, List.mem_append,
        List.mem_singleton] at hd
      rcases hd with hd | rfl
      · exact ih _ _ hd
      · exact Nat.mod_lt _ (by norm_num)

theorem decDigitsAux_ne_nil : ∀ fuel n : Nat, fuel ≠ 0 → decDigitsAux fuel n ≠ [] := by
  intro fuel n h
  cases fuel with
  | zero => exact absurd rfl h
  | succ fuel =>
    by_cases hn : n < 10 <;> simp [decDigitsAux, hn]

theorem foldl_decDigitsAux : ∀ fuel n a : Nat, n < fuel →
    (decDigitsAux fuel n).foldl (fun acc d => acc * 10 + d) a =
      a * 10 ^ (decDigitsAux fuel n).length + n := by
  intro fuel
  induction fuel with
  | zero => intro n a h; exact absurd h (Nat.not_lt_zero n)
  | succ fuel ih =>
    intro n a h
    by_cases hn : n < 10
    · simp [decDigitsAux, hn, pow_one]
    · have hd : n / 10 < fuel := by
        have h1 : n / 10 < n := Nat.div_lt_self (by omega) (by norm_num)
        omega
      simp only [decDigitsAux, if_neg hn, List.foldl_append, List.foldl_cons,
        List.foldl_nil, List.length_append, List.length_cons, List.length_nil]
      rw [ih _ _ hd, pow_succ, ← mul_assoc]
      omega

theorem decVal_decChar : ∀ d : Nat, d < 10 →
    decVal (Char.ofNat (48 + d)) = some d := by
  decide

theorem parseNat_natToString (n : Nat) (h : n < i64Limit) :
    parseNat (natToString n) = some n := by
  have hne : decDigitsAux (n + 1) n ≠ [] := decDigitsAux_ne_nil (n + 1) n (by omega)
  have hlen : ¬ (((decDigitsAux (n + 1) n).map
      (fun d => Char.ofNat (48 + d))).length = 0) := by
    simpa [List.length_eq_zero] using hne
  unfold parseNat natToString
  dsimp only
  rw [if_neg hlen]
  rw [mapOption_map decVal (fun d => Char.ofNat (48 + d)) _
    (fun d hd => decVal_decChar d (decDigitsAux_lt _ _ d hd))]
  simp [foldl_decDigitsAux (n + 1) n 0 (by omega), h]

theorem jsonToKey_keyToJson : ∀ k : Key, jsonToKey (keyToJson k) = some k := by
  intro k
  cases k <;> rfl

theorem jsonToKeys_keysToJson (ks : List Key) :
    jsonToKeys (keysToJson ks) = some ks :=
  mapOption_map jsonToKey keyToJson ks (fun k _ => jsonToKey_keyToJson k)

theorem jsonToHistory_historyToJson (h : List Uuid)
    (hwf : ∀ u ∈ h, u < 2 ^ 128) :
    jsonToHistory (historyToJson h) = some h :=
  mapOption_map _ _ h (fun u hu => parseUuid_uuidToString u (hwf u hu))

theorem jsonToStatus_statusToJson : ∀ s : TransactionStatus,
    jsonToStatus (statusToJson s) = some s := by
  intro s
  cases s <;> rfl

theorem jsonToInstruction_instructionToJson (i : Instruction)
    (hwf : wfInstruction i = true) :
    jsonToInstruction (instructionToJson i) = some i := by
  cases i with
  | Transfer t =>
    simp only [wfInstruction, wfUuid, Bool.and_eq_true, decide_eq_true_eq] at hwf
    obtain ⟨h1, h2⟩ := hwf
    simp [instructionToJson, jsonToInstruction,
      parseUuid_uuidToString _ h1, parseUuid_uuidToString _ h2]
  | CreateAccount c =>
    simp [instructionToJson, jsonToInstruction, jsonToKeys_keysToJson]
  | Deposit d =>
    simp only [wfInstruction, wfUuid, decide_eq_true_eq] at hwf
    simp [instructionToJson, jsonToInstruction, parseUuid_uuidToString _ hwf]
  | GetBalance g =>
    simp only [wfInstruction, wfUuid, decide_eq_true_eq] at hwf
    simp [instructionToJson, jsonToInstruction, parseUuid_uuidToString _ hwf]

theorem loadAccount_saveAccount (p : Uuid × Account)
    (hwf : wfAccountEntry p = true) (hb : p.2.balance < i64Limit) :
    loadAccount (saveAccount p.2) = some p := by
  obtain ⟨k, a⟩ := p
  simp only [wfAccountEntry, wfHistory, wfUuid, Bool.and_eq_true,
    List.all_eq_true, decide_eq_true_eq] at hwf
  obtain ⟨⟨hk, hu⟩, hh⟩ := hwf
  subst hk
  simp [saveAccount, loadAccount, parseUuid_uuidToString _ hu,
    parseNat_natToString _ hb, jsonToKeys_keysToJson,
    jsonToHistory_historyToJson _ hh]

theorem loadTransaction_saveTransaction (p : Uuid × Transaction)
    (hwf : wfTransactionEntry p = true) :
    loadTransaction (saveTransaction p.2) = some p := by
  obtain ⟨k, t⟩ := p
  simp only [wfTransactionEntry, wfUuid, Bool.and_eq_true,
    decide_eq_true_eq] at hwf
  obtain ⟨⟨hk, hu⟩, hi⟩ := hwf
  subst hk
  simp [saveTransaction, loadTransaction, parseUuid_uuidToString _ hu,
    jsonToStatus_statusToJson, jsonToInstruction_instructionToJson _ hi]

/-- C7 counterexample: a wellformed single-account state whose balance
`2^63` is a valid `u64` (one deposit away from a fresh account, so the
state is reachable) does not survive the snapshot: `save_state` binds
the decimal text into the INTEGER-affinity column, the value exceeds
`i64::MAX`, and `load_state`'s `u64` read fails — the round trip yields
an error, not the state. -/
theorem c7_snapshot_i64_counterexample :
    wfAccountEntry (1, ⟨1, 2 ^ 63, [], []⟩) = true ∧
    (2 : Nat) ^ 63 ≤ u64Max ∧
    load_state (save_state [(1, ⟨1, 2 ^ 63, [], []⟩)] [] []) = none :=
  ⟨by decide, by decide, rfl⟩

/-- C7 (amended): `load_state` after `save_state` restores the accounts
map, the transactions map and the processed set exactly — in particular
each account's history order — for every wellformed state (every stored
account keyed by its own uuid, every transaction keyed by its own id,
all ids 128-bit values) **whose balances fit in SQLite's signed 64-bit
INTEGER** (`balance < 2^63`); reachable balances at or above `2^63` do
not survive the INTEGER column (see the counterexample). -/
theorem c7_snapshot_roundtrip (accounts : List (Uuid × Persist.Account))
    (transactions : List (Uuid × Transaction)) (processed : List Uuid)
    (ha : ∀ p ∈ accounts, wfAccountEntry p = true)
    (hb : ∀ p ∈ accounts, p.2.balance < i64Limit)
    (ht : ∀ p ∈ transactions, wfTransactionEntry p = true)
    (hp : ∀ u ∈ processed, wfUuid u = true) :
    load_state (save_state accounts transactions processed) =
      some (accounts, transactions, processed) := by
  unfold load_state save_state
  dsimp only
  rw [mapOption_map loadAccount _ accounts
      (fun p hp' => loadAccount_saveAccount p (ha p hp') (hb p hp')),
    mapOption_map loadTransaction _ transactions
      (fun p hp' => loadTransaction_saveTransaction p (ht p hp')),
    mapOption_map parseUuid uuidToString processed
      (fun u hu => parseUuid_uuidToString u (of_decide_eq_true (hp u hu)))]

/-- C7 witness: a concrete state with one account (balance 123, within
the i64 range), one transfer transaction and one processed id survives
the round trip verbatim. -/
theorem c7_snapshot_roundtrip_witness :
    load_state (save_state
      [(5, ⟨5, 123, [Key.Email "a@b"], [9]⟩)]
      [(9, ⟨9, .Transfer ⟨5, 5, 1⟩, .Completed, 111⟩)]
      [9]) =
      some ([(5, ⟨5, 123, [Key.Email "a@b"], [9]⟩)],
        [(9, ⟨9, .Transfer ⟨5, 5, 1⟩, .Completed, 111⟩)], [9]) :=
  c7_snapshot_roundtrip _ _ _ (by decide) (by decide) (by decide) (by decide)

end Persist

end Quasar
